import Mathlib

/-!
Shallow embedding of the EnTanMo consensus engine (`src/logic/consensus.js`)
and peer module, with theorems checking the natural-language specification
against the code.

External collaborators (the `crypto` SHA-256 digest, `ed` Ed25519
verification, the `slots` configuration constants `delegates` and `leading`)
are modelled as explicit parameters: they are npm / config dependencies, not
code of this repository.
-/

namespace Etm

/-- One entry of a vote's `signatures` array: `{key, sig}` hex strings. -/
structure SigItem where
  key : String
  sig : String
deriving DecidableEq, Repr

/-- A votes object as produced by `createVotes` / accumulated in
`pendingVotes`: `{height, id, timestamp, signatures}`. -/
structure Votes where
  height : Nat
  id : String
  timestamp : Nat
  signatures : List SigItem
deriving DecidableEq, Repr

/-- The block-header fields the consensus state machine reads. -/
structure Block where
  height : Nat
  id : String
  timestamp : Nat
deriving DecidableEq, Repr

/-- A votes-shaped argument as seen by `hasEnoughVotes` at its public
interface: the `signatures` field may be absent (JS `undefined`), and the
whole argument may be `null`/`undefined` (modelled by wrapping in `Option`
at the call). -/
structure VotesArg where
  signatures : Option (List SigItem)
deriving DecidableEq, Repr

/-- `Consensus.prototype.hasEnoughVotes`:
`votes && votes.signatures && votes.signatures.length > slots.delegates * 2 / 3`.
The truthy chain returns a falsy value when `votes` or `votes.signatures`
is missing; the numeric comparison is JS real division, modelled exactly
over `ℚ`. `delegates` stands for `slots.delegates`. -/
def hasEnoughVotes (delegates : Nat) (votes : Option VotesArg) : Bool :=
  match votes with
  | none => false
  | some v =>
    match v.signatures with
    | none => false
    | some sigs => decide ((sigs.length : ℚ) > (delegates : ℚ) * 2 / 3)

/-- `Consensus.prototype.hasEnoughVotesRemote`:
`votes && votes.signatures && votes.signatures.length >= 6`. -/
def hasEnoughVotesRemote (votes : Option VotesArg) : Bool :=
  match votes with
  | none => false
  | some v =>
    match v.signatures with
    | none => false
    | some sigs => decide (sigs.length ≥ 6)

/-- The mutable consensus state owned by the `Consensus` instance:
`pendingBlock`, `pendingVotes`, and `votesKeySet` (a JS object used as a
string set, modelled as the insertion-ordered list of its recorded keys). -/
structure ConsState where
  pendingBlock : Option Block
  pendingVotes : Option Votes
  votesKeySet : List String
deriving DecidableEq, Repr

/-- The state installed by the `Consensus` constructor:
`pendingBlock = null`, `pendingVotes = null`, `votesKeySet = {}`. -/
def initialState : ConsState :=
  { pendingBlock := none, pendingVotes := none, votesKeySet := [] }

/-- `Consensus.prototype.setPendingBlock`: sets `pendingVotes = null`,
`votesKeySet = {}`, `pendingBlock = block`. -/
def setPendingBlock (s : ConsState) (block : Block) : ConsState :=
  { s with pendingVotes := none, votesKeySet := [], pendingBlock := some block }

/-- `Consensus.prototype.clearState`: resets all three fields. -/
def clearState (_s : ConsState) : ConsState :=
  { pendingBlock := none, pendingVotes := none, votesKeySet := [] }

/-- `Consensus.prototype.addPendingVotes` loop body for a single
`signatures` item: skip if the key is already recorded in `votesKeySet`;
otherwise, if `verifyVote` accepts it, record the key and push the item
(creating the accumulator object on first use). `verify` abstracts
`this.verifyVote(votes.height, votes.id, item)`. -/
def addVoteItem (verify : Nat → String → SigItem → Bool)
    (h : Nat) (id : String) (ts : Nat) (s : ConsState) (item : SigItem) : ConsState :=
  if s.votesKeySet.contains item.key then s
  else if verify h id item then
    let pv := s.pendingVotes.getD { height := h, id := id, timestamp := ts, signatures := [] }
    { s with
      votesKeySet := s.votesKeySet ++ [item.key],
      pendingVotes := some { pv with signatures := pv.signatures ++ [item] } }
  else s

/-- `Consensus.prototype.addPendingVotes`: early-returns the current
accumulator when there is no pending block or the vote's `(height, id)`
differs from the pending block's; otherwise folds the loop body over the
incoming `signatures` and returns the (new state, returned accumulator). -/
def addPendingVotes (verify : Nat → String → SigItem → Bool)
    (s : ConsState) (votes : Votes) : ConsState × Option Votes :=
  match s.pendingBlock with
  | none => (s, s.pendingVotes)
  | some b =>
    if b.height == votes.height && b.id == votes.id then
      let s2 := votes.signatures.foldl
        (addVoteItem verify votes.height votes.id votes.timestamp) s
      (s2, s2.pendingVotes)
    else (s, s.pendingVotes)

/-- The key fields of the signatures stored in an accumulator
(the empty list when the accumulator is `null`). -/
def sigKeys : Option Votes → List String
  | none => []
  | some pv => pv.signatures.map (fun item => item.key)

/-- An operation on the consensus pending state, as invoked by callers of
the `Consensus` instance. -/
inductive ConsOp where
  | setPending (b : Block)
  | clear
  | addVotes (v : Votes)

/-- Apply one operation to the state (dropping the value `addPendingVotes`
returns to its caller). -/
def applyOp (verify : Nat → String → SigItem → Bool) (s : ConsState) : ConsOp → ConsState
  | ConsOp.setPending b => setPendingBlock s b
  | ConsOp.clear => clearState s
  | ConsOp.addVotes v => (addPendingVotes verify s v).1

/-- Run a sequence of operations from the constructor's initial state. -/
def runOps (verify : Nat → String → SigItem → Bool) (ops : List ConsOp) : ConsState :=
  ops.foldl (applyOp verify) initialState

/-- A signature verifier that accepts everything (used to instantiate
universally quantified theorems at concrete inputs). -/
def wVerify : Nat → String → SigItem → Bool := fun _ _ _ => true

/-- `v & 0x77` on one byte: clears the bits `0x88`, as both masking loops
inside `Consensus.prototype.verifyPOW` do. -/
def maskByte (b : Fin 256) : Fin 256 :=
  ⟨b.val &&& 0x77, Nat.lt_of_le_of_lt Nat.and_le_right (by norm_num)⟩

/-- Mask the first `leading` bytes of a buffer with `& 0x77`
(`for (let i = 0; i < slots.leading; i++) ...` in `verifyPOW`). -/
def maskBuffer : Nat → List (Fin 256) → List (Fin 256)
  | _, [] => []
  | 0, bs => bs
  | n + 1, b :: bs => maskByte b :: maskBuffer n bs

/-- Node's `buf.toString("hex")`: two lowercase hex digits per byte. -/
def bufToHexChars : List (Fin 256) → List Char
  | [] => []
  | b :: bs => Nat.digitChar (b.val / 16) :: Nat.digitChar (b.val % 16) :: bufToHexChars bs

/-- Node's `buf.toString("hex")` as a `String`. -/
def bufToHex (bs : List (Fin 256)) : String := ⟨bufToHexChars bs⟩

/-- Value of one hex digit character (Node's `Buffer.from(_, "hex")`
accepts both cases). -/
def hexDigitVal (c : Char) : Option Nat :=
  if '0' ≤ c ∧ c ≤ '9' then some (c.toNat - '0'.toNat)
  else if 'a' ≤ c ∧ c ≤ 'f' then some (c.toNat - 'a'.toNat + 10)
  else if 'A' ≤ c ∧ c ≤ 'F' then some (c.toNat - 'A'.toNat + 10)
  else none

/-- Node's `Buffer.from(hex, "hex")` on a char list: consume pairs of hex
digits, truncating at the first invalid or unpaired digit. -/
def hexCharsToBytes : List Char → List (Fin 256)
  | c1 :: c2 :: rest =>
    match hexDigitVal c1, hexDigitVal c2 with
    | some hi, some lo => (Fin.ofNat (16 * hi + lo) : Fin 256) :: hexCharsToBytes rest
    | _, _ => []
  | _ => []

/-- Node's `Buffer.from(hex, "hex")`. -/
def hexToBytes (s : String) : List (Fin 256) := hexCharsToBytes s.data

/-- `entanmoPoWVerifier` inside `verifyPOW`: SHA-256 of
`src = hash + nonce.toString()`, first `leading` bytes masked with `& 0x77`,
hex-encoded. `sha256` abstracts `crypto.createHash("sha256")...digest()`. -/
def entanmoPoWVerifier (sha256 : String → List (Fin 256)) (leading : Nat)
    (hash : String) (nonce : Nat) : String :=
  bufToHex (maskBuffer leading (sha256 (hash ++ toString nonce)))

/-- `proposePoWHashConvert` inside `verifyPOW`: the submitted `propose.hash`
decoded from hex, first `leading` bytes masked with `& 0x77`, re-encoded. -/
def proposePoWHashConvert (leading : Nat) (hexPoWHash : String) : String :=
  bufToHex (maskBuffer leading (hexToBytes hexPoWHash))

/-- The decision of `Consensus.prototype.verifyPOW` once the delegate-index
lookup has produced the difficulty string `target`:
`sha256Result === proposePoWResult && sha256Result.indexOf(target) === 0`. -/
def verifyPOW (sha256 : String → List (Fin 256)) (leading : Nat)
    (proposeHashHex : String) (nonce : Nat) (submittedHash target : String) : Bool :=
  let sha256Result := entanmoPoWVerifier sha256 leading proposeHashHex nonce
  let proposePoWResult := proposePoWHashConvert leading submittedHash
  sha256Result == proposePoWResult && sha256Result.startsWith target

/-- `Consensus.prototype.verifyVote`, with the fallible crypto primitives
abstracted as `Except` computations: `getVoteHashE` models `getVoteHash`
(whose `bignum(id)` may throw on a malformed id) and `edVerifyE` models
`ed.Verify` on the hash and the hex `sig`/`key` strings (it may throw on
malformed input). The source's `try/catch` turns any exception into
`false`. -/
def verifyVote (getVoteHashE : Nat → String → Except String (List (Fin 256)))
    (edVerifyE : List (Fin 256) → String → String → Except String Bool)
    (height : Nat) (id : String) (item : SigItem) : Bool :=
  match (do
      let hash ← getVoteHashE height id
      edVerifyE hash item.sig item.key : Except String Bool) with
  | Except.ok b => b
  | Except.error _ => false

/-- The signature-check branch of `Consensus.prototype.acceptPropose`
(reached after PoW verification succeeded): `none` models `cb()`
(acceptance), `some msg` models `cb(msg)` (rejection reported through the
callback). The `try/catch` maps any exception to a rejection message. -/
def acceptProposeSigCheck
    (edVerifyE : List (Fin 256) → String → String → Except String Bool)
    (proposeHash signature generatorPublicKey : String) : Option String :=
  match edVerifyE (hexToBytes proposeHash) signature generatorPublicKey with
  | Except.ok true => none
  | Except.ok false => some "Vefify signature failed"
  | Except.error e => some ("Verify signature exception: " ++ e)

/-- JS `version.split('.')` on the dot separator. -/
def splitOnDotAux : List Char → List Char → List String
  | [], acc => [⟨acc.reverse⟩]
  | c :: rest, acc =>
    if c = '.' then ⟨acc.reverse⟩ :: splitOnDotAux rest []
    else splitOnDotAux rest (c :: acc)

/-- JS `version.split('.')`. -/
def splitDot (s : String) : List String := splitOnDotAux s.data []

/-- JS `<` on two results of `Number(...)`: `NaN` (modelled as `none`)
compares false. -/
def jsLt (a b : Option ℚ) : Bool :=
  match a, b with
  | some x, some y => decide (x < y)
  | _, _ => false

/-- JS `>` on two results of `Number(...)`: `NaN` compares false. -/
def jsGt (a b : Option ℚ) : Bool :=
  match a, b with
  | some x, some y => decide (x > y)
  | _, _ => false

/-- The comparison loop of `Peer.prototype.isCompatible`: return `false`
at the first component below the minimum, `true` at the first component
above it, `true` when the loop falls through. -/
def cmpLoop : List (Option ℚ) → List (Option ℚ) → Bool
  | a :: as, b :: bs =>
    if jsLt a b then false
    else if jsGt a b then true
    else cmpLoop as bs
  | _, _ => true

/-- `Peer.prototype.isCompatible`. `toNum` abstracts JS `Number(...)`
(`none` is `NaN`); `netVersion` is `library.config.netVersion`. -/
def isCompatible (toNum : String → Option ℚ) (netVersion version : String) : Bool :=
  if ((splitDot version).map toNum).length ≠ 3 then true
  else
    cmpLoop ((splitDot version).map toNum)
      ((splitDot (if netVersion == "testnet" then "1.2.3"
        else if netVersion == "mainnet" then "1.3.1"
        else "0.0.0")).map toNum)

/-- A concrete `Number(...)` fragment covering the digits used by the
version-compatibility witness. -/
def wToNum : String → Option ℚ :=
  fun s =>
    if s = "0" then some 0
    else if s = "1" then some 1
    else if s = "2" then some 2
    else if s = "3" then some 3
    else none

/-- A DHT routing-table entry as seen by the seed-reconnect tick. -/
structure DhtNode where
  host : String
  port : Nat
deriving DecidableEq, Repr

/-- `isInDht` from the seed-reconnect tick inside `initDHT`: some table
node shares both host and port. -/
def isInDht (allNodes : List DhtNode) (n : DhtNode) : Bool :=
  allNodes.any fun dn => dn.host == n.host && dn.port == n.port

/-- The list of seeds handed to `dht.addNode` on one seed-reconnect tick:
`bootstrapNodes.filter(node => !isInDht(node)).filter(n => n.host !== host
&& n.port !== port)`. -/
def reconnectSeeds (bootstrapNodes allNodes : List DhtNode)
    (host : String) (port : Nat) : List DhtNode :=
  (bootstrapNodes.filter fun node => !(isInDht allNodes node)).filter
    fun n => n.host != host && n.port != port

/-- Helper for `addPendingVotes`: with no pending block, the call is the
identity returning the current accumulator. -/
theorem addPendingVotes_none (verify : Nat → String → SigItem → Bool)
    (s : ConsState) (v : Votes) (hb : s.pendingBlock = none) :
    addPendingVotes verify s v = (s, s.pendingVotes) := by
  unfold addPendingVotes; rw [hb]

/-- Helper for `addPendingVotes`: with a pending block whose `(height, id)`
does not match, the call is the identity returning the current
accumulator. -/
theorem addPendingVotes_neg (verify : Nat → String → SigItem → Bool)
    (s : ConsState) (v : Votes) (b : Block) (hb : s.pendingBlock = some b)
    (hcond : (b.height == v.height && b.id == v.id) = false) :
    addPendingVotes verify s v = (s, s.pendingVotes) := by
  unfold addPendingVotes; rw [hb]; simp [hcond]

/-- Helper for `addPendingVotes`: with a matching pending block, the call
folds the loop body over the incoming signatures. -/
theorem addPendingVotes_pos (verify : Nat → String → SigItem → Bool)
    (s : ConsState) (v : Votes) (b : Block) (hb : s.pendingBlock = some b)
    (hcond : (b.height == v.height && b.id == v.id) = true) :
    addPendingVotes verify s v
      = (v.signatures.foldl (addVoteItem verify v.height v.id v.timestamp) s,
         (v.signatures.foldl (addVoteItem verify v.height v.id v.timestamp) s).pendingVotes) := by
  unfold addPendingVotes; rw [hb]; simp [hcond]

/-- The loop body never touches `pendingBlock`. -/
theorem addVoteItem_pendingBlock (verify : Nat → String → SigItem → Bool)
    (h : Nat) (id : String) (ts : Nat) (s : ConsState) (item : SigItem) :
    (addVoteItem verify h id ts s item).pendingBlock = s.pendingBlock := by
  unfold addVoteItem
  split
  · rfl
  · split <;> rfl

/-- The whole loop never touches `pendingBlock`. -/
theorem foldl_addVoteItem_pendingBlock (verify : Nat → String → SigItem → Bool)
    (h : Nat) (id : String) (ts : Nat) (l : List SigItem) :
    ∀ s : ConsState,
      (l.foldl (addVoteItem verify h id ts) s).pendingBlock = s.pendingBlock := by
  induction l with
  | nil => intro s; rfl
  | cons x xs ih =>
    intro s
    rw [List.foldl_cons, ih, addVoteItem_pendingBlock]

/-- Keys recorded in `votesKeySet` are never removed by the loop body. -/
theorem addVoteItem_keyset_mono (verify : Nat → String → SigItem → Bool)
    (h : Nat) (id : String) (ts : Nat) (s : ConsState) (item : SigItem) {k : String}
    (hk : k ∈ s.votesKeySet) :
    k ∈ (addVoteItem verify h id ts s item).votesKeySet := by
  unfold addVoteItem
  split
  · exact hk
  · split
    · exact List.mem_append_left _ hk
    · exact hk

/-- Keys recorded in `votesKeySet` are never removed by the loop. -/
theorem foldl_addVoteItem_keyset_mono (verify : Nat → String → SigItem → Bool)
    (h : Nat) (id : String) (ts : Nat) (l : List SigItem) :
    ∀ (s : ConsState) {k : String}, k ∈ s.votesKeySet →
      k ∈ (l.foldl (addVoteItem verify h id ts) s).votesKeySet := by
  induction l with
  | nil => intro s k hk; exact hk
  | cons x xs ih =>
    intro s k hk
    rw [List.foldl_cons]
    exact ih _ (addVoteItem_keyset_mono verify h id ts s x hk)

/-- If after the loop an incoming item's key is still unrecorded, its
signature must have failed verification. -/
theorem foldl_addVoteItem_verify_false (verify : Nat → String → SigItem → Bool)
    (h : Nat) (id : String) (ts : Nat) (l : List SigItem) :
    ∀ (s : ConsState) (item : SigItem), item ∈ l →
      item.key ∉ (l.foldl (addVoteItem verify h id ts) s).votesKeySet →
      verify h id item = false := by
  induction l with
  | nil => intro s item hmem; cases hmem
  | cons x xs ih =>
    intro s item hmem hnot
    rw [List.foldl_cons] at hnot
    rcases List.mem_cons.mp hmem with heq | hmem'
    · subst heq
      by_contra hv
      rw [Bool.not_eq_false] at hv
      apply hnot
      apply foldl_addVoteItem_keyset_mono
      unfold addVoteItem
      split
      · rename_i hc
        simpa [List.contains] using hc
      · exact List.mem_append_right _ (List.mem_singleton.mpr rfl)
    · exact ih (addVoteItem verify h id ts s x) item hmem' hnot

/-- `addVoteItem` equation: an already-recorded key is skipped. -/
theorem addVoteItem_skip (verify : Nat → String → SigItem → Bool)
    (h : Nat) (id : String) (ts : Nat) (s : ConsState) (item : SigItem)
    (hc : s.votesKeySet.contains item.key = true) :
    addVoteItem verify h id ts s item = s := by
  unfold addVoteItem
  rw [if_pos hc]

/-- `addVoteItem` equation: an unrecorded key whose signature fails
verification is dropped. -/
theorem addVoteItem_drop (verify : Nat → String → SigItem → Bool)
    (h : Nat) (id : String) (ts : Nat) (s : ConsState) (item : SigItem)
    (hc : s.votesKeySet.contains item.key = false)
    (hv : verify h id item = false) :
    addVoteItem verify h id ts s item = s := by
  unfold addVoteItem
  rw [if_neg (by rw [hc]; decide), if_neg (by rw [hv]; decide)]

/-- A fold is the identity as soon as every step is. -/
theorem foldl_fixpoint {α β : Type} (f : α → β → α) (a : α) :
    ∀ l : List β, (∀ x ∈ l, f a x = a) → l.foldl f a = a := by
  intro l
  induction l with
  | nil => intro _; rfl
  | cons x xs ih =>
    intro hfix
    rw [List.foldl_cons, hfix x (List.mem_cons_self x xs)]
    exact ih fun y hy => hfix y (List.mem_cons_of_mem x hy)

/-- Running the vote-aggregation loop a second time over the same
signatures changes nothing. -/
theorem foldl_addVoteItem_idem (verify : Nat → String → SigItem → Bool)
    (h : Nat) (id : String) (ts : Nat) (l : List SigItem) (s : ConsState) :
    l.foldl (addVoteItem verify h id ts) (l.foldl (addVoteItem verify h id ts) s)
      = l.foldl (addVoteItem verify h id ts) s := by
  apply foldl_fixpoint
  intro item hmem
  by_cases hc : (l.foldl (addVoteItem verify h id ts) s).votesKeySet.contains item.key = true
  · exact addVoteItem_skip verify h id ts _ item hc
  · have hv : verify h id item = false := by
      apply foldl_addVoteItem_verify_false verify h id ts l s item hmem
      simpa [List.contains] using hc
    exact addVoteItem_drop verify h id ts _ item (by simpa using hc) hv

/-- The loop body keeps `votesKeySet` in lock-step with the keys of the
stored signatures. -/
theorem addVoteItem_inv (verify : Nat → String → SigItem → Bool)
    (h : Nat) (id : String) (ts : Nat) (s : ConsState) (item : SigItem)
    (hinv : s.votesKeySet = sigKeys s.pendingVotes) :
    (addVoteItem verify h id ts s item).votesKeySet
      = sigKeys (addVoteItem verify h id ts s item).pendingVotes := by
  unfold addVoteItem
  split
  · exact hinv
  · split
    · cases hpv : s.pendingVotes with
      | none =>
        have hks : s.votesKeySet = [] := by rw [hinv, hpv]; rfl
        simp [sigKeys, hpv, hks]
      | some pv =>
        rw [hpv] at hinv
        simp [sigKeys, hpv, hinv]
    · exact hinv

/-- The loop body preserves distinctness of the recorded keys. -/
theorem addVoteItem_nodup (verify : Nat → String → SigItem → Bool)
    (h : Nat) (id : String) (ts : Nat) (s : ConsState) (item : SigItem)
    (hnd : s.votesKeySet.Nodup) :
    (addVoteItem verify h id ts s item).votesKeySet.Nodup := by
  unfold addVoteItem
  split
  · exact hnd
  · split
    · rename_i hc _
      have hk : item.key ∉ s.votesKeySet := by simpa [List.contains] using hc
      simp [List.nodup_append, hnd, hk]
    · exact hnd

/-- The whole loop keeps `votesKeySet` in lock-step with the keys of the
stored signatures. -/
theorem foldl_addVoteItem_inv (verify : Nat → String → SigItem → Bool)
    (h : Nat) (id : String) (ts : Nat) (l : List SigItem) :
    ∀ s : ConsState, s.votesKeySet = sigKeys s.pendingVotes →
      (l.foldl (addVoteItem verify h id ts) s).votesKeySet
        = sigKeys (l.foldl (addVoteItem verify h id ts) s).pendingVotes := by
  induction l with
  | nil => intro s hinv; exact hinv
  | cons x xs ih =>
    intro s hinv
    rw [List.foldl_cons]
    exact ih _ (addVoteItem_inv verify h id ts s x hinv)

/-- The whole loop preserves distinctness of the recorded keys. -/
theorem foldl_addVoteItem_nodup (verify : Nat → String → SigItem → Bool)
    (h : Nat) (id : String) (ts : Nat) (l : List SigItem) :
    ∀ s : ConsState, s.votesKeySet.Nodup →
      (l.foldl (addVoteItem verify h id ts) s).votesKeySet.Nodup := by
  induction l with
  | nil => intro s hnd; exact hnd
  | cons x xs ih =>
    intro s hnd
    rw [List.foldl_cons]
    exact ih _ (addVoteItem_nodup verify h id ts s x hnd)

/-- Every operation preserves the `votesKeySet` / `pendingVotes` key
invariant. -/
theorem applyOp_inv (verify : Nat → String → SigItem → Bool)
    (s : ConsState) (op : ConsOp)
    (hinv : s.votesKeySet = sigKeys s.pendingVotes) :
    (applyOp verify s op).votesKeySet = sigKeys (applyOp verify s op).pendingVotes := by
  cases op with
  | setPending b => rfl
  | clear => rfl
  | addVotes v =>
    show ((addPendingVotes verify s v).1).votesKeySet
      = sigKeys ((addPendingVotes verify s v).1).pendingVotes
    cases hpb : s.pendingBlock with
    | none => rw [addPendingVotes_none verify s v hpb]; exact hinv
    | some b =>
      by_cases hcond : (b.height == v.height && b.id == v.id) = true
      · rw [addPendingVotes_pos verify s v b hpb hcond]
        exact foldl_addVoteItem_inv verify v.height v.id v.timestamp v.signatures s hinv
      · rw [addPendingVotes_neg verify s v b hpb (by simpa using hcond)]
        exact hinv

/-- `Nat.digitChar` is injective below 16. -/
theorem digitChar_inj_lt16 :
    ∀ x y : Fin 16, Nat.digitChar x.val = Nat.digitChar y.val → x = y := by
  decide

/-- Hex encoding of a byte buffer is injective (char-list level). -/
theorem bufToHexChars_inj : ∀ as bs : List (Fin 256),
    bufToHexChars as = bufToHexChars bs → as = bs
  | [], [], _ => rfl
  | [], _ :: _, h => by simp [bufToHexChars] at h
  | _ :: _, [], h => by simp [bufToHexChars] at h
  | a :: as, b :: bs, h => by
    simp only [bufToHexChars] at h
    injection h with h1 h'
    injection h' with h2 h3
    have ha := a.isLt
    have hb := b.isLt
    have h4 := digitChar_inj_lt16 ⟨a.val / 16, by omega⟩ ⟨b.val / 16, by omega⟩ h1
    have h5 := digitChar_inj_lt16 ⟨a.val % 16, by omega⟩ ⟨b.val % 16, by omega⟩ h2
    have hdiv : a.val / 16 = b.val / 16 := congrArg Fin.val h4
    have hmod : a.val % 16 = b.val % 16 := congrArg Fin.val h5
    have hval : a.val = b.val := by omega
    rw [Fin.ext hval, bufToHexChars_inj as bs h3]

/-- Hex encoding of a byte buffer is injective. -/
theorem bufToHex_inj {as bs : List (Fin 256)} (h : bufToHex as = bufToHex bs) :
    as = bs := by
  unfold bufToHex at h
  injection h with h'
  exact bufToHexChars_inj as bs h'

/-- The version-comparison loop on fully numeric triples is exactly the
lexicographic greater-or-equal test. -/
theorem cmpLoop_some (a b c x y z : ℚ) :
    cmpLoop [some a, some b, some c] [some x, some y, some z] = true ↔
      (x < a ∨ (a = x ∧ (y < b ∨ (b = y ∧ z ≤ c)))) := by
  rcases lt_trichotomy a x with h | h | h
  · simp [cmpLoop, jsLt, jsGt, h, lt_asymm h, ne_of_lt h]
  · subst h
    rcases lt_trichotomy b y with h2 | h2 | h2
    · simp [cmpLoop, jsLt, jsGt, h2, lt_asymm h2, ne_of_lt h2, lt_irrefl]
    · subst h2
      rcases lt_trichotomy c z with h3 | h3 | h3
      · simp [cmpLoop, jsLt, jsGt, lt_irrefl, h3, not_le.mpr h3]
      · subst h3
        simp [cmpLoop, jsLt, jsGt, lt_irrefl, le_refl]
      · simp [cmpLoop, jsLt, jsGt, lt_irrefl, h3, lt_asymm h3, le_of_lt h3]
    · simp [cmpLoop, jsLt, jsGt, h2, lt_asymm h2, lt_irrefl]
  · simp [cmpLoop, jsLt, jsGt, h, lt_asymm h]

/-- C2: PoW verification succeeds iff the masked recomputation
`mask(SHA256(hex(proposeHashBytes) ++ decimal(nonce)))` equals the masked
submitted hash `mask(propose.hash)` — `mask` keeping bits `0x77` of the
first `slots.leading` bytes — and the hex encoding of that masked value
starts with the derived difficulty string. -/
theorem verifyPOW_iff (sha256 : String → List (Fin 256)) (leading : Nat)
    (proposeHashHex : String) (nonce : Nat) (submittedHash target : String) :
    verifyPOW sha256 leading proposeHashHex nonce submittedHash target = true ↔
      (maskBuffer leading (sha256 (proposeHashHex ++ toString nonce))
          = maskBuffer leading (hexToBytes submittedHash)
        ∧ (bufToHex (maskBuffer leading
            (sha256 (proposeHashHex ++ toString nonce)))).startsWith target = true) := by
  unfold verifyPOW entanmoPoWVerifier proposePoWHashConvert
  rw [Bool.and_eq_true]
  constructor
  · rintro ⟨h1, h2⟩
    exact ⟨bufToHex_inj (eq_of_beq h1), h2⟩
  · rintro ⟨h1, h2⟩
    refine ⟨?_, h2⟩
    rw [h1]
    exact beq_self_eq_true _

/-- C7: signature verification never propagates an exception: whenever an
abstracted crypto primitive throws, `verifyVote` returns `false`, and the
signature branch of `acceptPropose` reports the rejection through its
callback; when nothing throws, `verifyVote` returns the verifier's
verdict. -/
theorem verifyVote_no_throw
    (getVoteHashE : Nat → String → Except String (List (Fin 256)))
    (edVerifyE : List (Fin 256) → String → String → Except String Bool)
    (height : Nat) (id : String) (item : SigItem)
    (proposeHash signature pk : String) :
    (∀ e, getVoteHashE height id = Except.error e →
        verifyVote getVoteHashE edVerifyE height id item = false)
    ∧ (∀ hash e, getVoteHashE height id = Except.ok hash →
        edVerifyE hash item.sig item.key = Except.error e →
        verifyVote getVoteHashE edVerifyE height id item = false)
    ∧ (∀ hash b, getVoteHashE height id = Except.ok hash →
        edVerifyE hash item.sig item.key = Except.ok b →
        verifyVote getVoteHashE edVerifyE height id item = b)
    ∧ (∀ e, edVerifyE (hexToBytes proposeHash) signature pk = Except.error e →
        acceptProposeSigCheck edVerifyE proposeHash signature pk
          = some ("Verify signature exception: " ++ e)) := by
  refine ⟨?_, ?_, ?_, ?_⟩
  · intro e he
    unfold verifyVote
    rw [he]
    rfl
  · intro hash e hg he
    unfold verifyVote
    rw [hg]
    show (match edVerifyE hash item.sig item.key with
      | Except.ok b => b
      | Except.error _ => false) = false
    rw [he]
  · intro hash b hg he
    unfold verifyVote
    rw [hg]
    show (match edVerifyE hash item.sig item.key with
      | Except.ok b => b
      | Except.error _ => false) = b
    rw [he]
  · intro e he
    unfold acceptProposeSigCheck
    rw [he]

/-- Witness for C7 at concrete throwing primitives. -/
theorem verifyVote_no_throw_witness :
    verifyVote (fun _ _ => Except.error "bad id")
        (fun _ _ _ => Except.error "bad key") 1 "x"
        { key := "k", sig := "s" } = false
    ∧ acceptProposeSigCheck (fun _ _ _ => Except.error "bad key") "aa" "bb" "cc"
        = some ("Verify signature exception: " ++ "bad key") := by
  have h := verifyVote_no_throw (fun _ _ => Except.error "bad id")
    (fun _ _ _ => Except.error "bad key") 1 "x"
    { key := "k", sig := "s" } "aa" "bb" "cc"
  exact ⟨h.1 "bad id" rfl, h.2.2.2 "bad key" rfl⟩

/-- C8: `isCompatible` accepts every version that does not split into
exactly three dot-separated components; on a numeric triplet `a.b.c` it
accepts iff `(a, b, c)` is lexicographically at least `(1, 3, 1)` on
mainnet and `(1, 2, 3)` on testnet. -/
theorem isCompatible_spec (toNum : String → Option ℚ) (net version : String) :
    ((splitDot version).length ≠ 3 → isCompatible toNum net version = true)
    ∧ (∀ s1 s2 s3 (a b c : ℚ),
        splitDot version = [s1, s2, s3] →
        toNum s1 = some a → toNum s2 = some b → toNum s3 = some c →
        toNum "1" = some 1 → toNum "2" = some 2 → toNum "3" = some 3 →
        (isCompatible toNum "mainnet" version = true ↔
            (1 < a ∨ (a = 1 ∧ (3 < b ∨ (b = 3 ∧ 1 ≤ c)))))
          ∧ (isCompatible toNum "testnet" version = true ↔
              (1 < a ∨ (a = 1 ∧ (2 < b ∨ (b = 2 ∧ 3 ≤ c)))))) := by
  constructor
  · intro hlen
    unfold isCompatible
    rw [if_pos (by simpa using hlen)]
  · intro s1 s2 s3 a b c hsplit h1 h2 h3 m1 m2 m3
    have hnums : (splitDot version).map toNum = [some a, some b, some c] := by
      rw [hsplit]; simp [h1, h2, h3]
    constructor
    · unfold isCompatible
      rw [hnums]
      rw [if_neg (by norm_num)]
      have hd : (if (("mainnet" : String) == "testnet") then "1.2.3"
          else if (("mainnet" : String) == "mainnet") then "1.3.1" else "0.0.0")
          = "1.3.1" := by decide
      rw [hd]
      have hsp : splitDot "1.3.1" = ["1", "3", "1"] := by decide
      rw [hsp]
      simp only [List.map, m1, m3]
      exact cmpLoop_some a b c 1 3 1
    · unfold isCompatible
      rw [hnums]
      rw [if_neg (by norm_num)]
      have hd : (if (("testnet" : String) == "testnet") then "1.2.3"
          else if (("testnet" : String) == "mainnet") then "1.3.1" else "0.0.0")
          = "1.2.3" := by decide
      rw [hd]
      have hsp : splitDot "1.2.3" = ["1", "2", "3"] := by decide
      rw [hsp]
      simp only [List.map, m1, m2, m3]
      exact cmpLoop_some a b c 1 2 3

/-- Witness for C8 at the concrete version `1.3.1` on mainnet. -/
theorem isCompatible_spec_witness :
    isCompatible wToNum "mainnet" "1.3.1" = true :=
  ((isCompatible_spec wToNum "mainnet" "1.3.1").2 "1" "3" "1" 1 3 1
      (by decide) (by decide) (by decide) (by decide)
      (by decide) (by decide) (by decide)).1.mpr
    (Or.inr ⟨rfl, Or.inr ⟨rfl, le_refl 1⟩⟩)

/-- C9: contrary to the claim, the seed-reconnect tick does not re-insert
every absent non-self bootstrap seed: its filter keeps a seed only when
both its host and its port differ from the local ones, so a seed that is
absent from the table and distinct from the local node is dropped as soon
as it shares the local port. -/
theorem reconnectSeeds_drops_foreign_seed :
    reconnectSeeds [{ host := "1.2.3.4", port := 7000 }] [] "5.6.7.8" 7000 = []
    ∧ isInDht [] { host := "1.2.3.4", port := 7000 } = false
    ∧ ({ host := "1.2.3.4", port := 7000 } : DhtNode)
        ≠ { host := "5.6.7.8", port := 7000 } := by
  refine ⟨by decide, rfl, by decide⟩

/-- C1: For every votes object carrying a signatures array, `hasEnoughVotes`
returns true iff the number of signatures is strictly greater than
`2·D/3` where `D = slots.delegates`; with `D = 101`, 67 signatures yield
false and 68 yield true. -/
theorem hasEnoughVotes_threshold (D : Nat) (sigs : List SigItem) (x : SigItem) :
    (hasEnoughVotes D (some { signatures := some sigs }) = true ↔
      (sigs.length : ℚ) > 2 * (D : ℚ) / 3)
    ∧ hasEnoughVotes 101 (some { signatures := some (List.replicate 67 x) }) = false
    ∧ hasEnoughVotes 101 (some { signatures := some (List.replicate 68 x) }) = true := by
  refine ⟨?_, ?_, ?_⟩
  · simp only [hasEnoughVotes, decide_eq_true_eq]
    constructor
    · intro h; linarith
    · intro h; linarith
  · simp only [hasEnoughVotes, List.length_replicate, decide_eq_false_iff_not, not_lt]
    norm_num
  · simp only [hasEnoughVotes, List.length_replicate, decide_eq_true_eq]
    norm_num

/-- C6: For every prior state and every block `b`, `setPendingBlock b` yields a
state with `pendingBlock = b`, `pendingVotes = null` and an empty
`votesKeySet`, whatever votes had been accumulated before. -/
theorem setPendingBlock_resets (s : ConsState) (b : Block) :
    (setPendingBlock s b).pendingBlock = some b
    ∧ (setPendingBlock s b).pendingVotes = none
    ∧ (setPendingBlock s b).votesKeySet = [] :=
  ⟨rfl, rfl, rfl⟩

/-- C3: If there is no pending block, or the incoming vote's height or id
differs from the pending block's, then `addPendingVotes` returns the
current accumulator and leaves `pendingBlock`, `pendingVotes` and
`votesKeySet` unchanged, raising no error. -/
theorem addPendingVotes_stale (verify : Nat → String → SigItem → Bool)
    (s : ConsState) (v : Votes)
    (hstale : s.pendingBlock = none
      ∨ ∃ b, s.pendingBlock = some b ∧ (b.height ≠ v.height ∨ b.id ≠ v.id)) :
    addPendingVotes verify s v = (s, s.pendingVotes) := by
  rcases hstale with hnone | ⟨b, hb, hmis⟩
  · exact addPendingVotes_none verify s v hnone
  · refine addPendingVotes_neg verify s v b hb ?_
    rcases hmis with hne | hne <;> simp [hne]

/-- Witness for C3 at a concrete state with no pending block. -/
theorem addPendingVotes_stale_witness :
    addPendingVotes wVerify initialState { height := 1, id := "a", timestamp := 0, signatures := [] }
      = (initialState, none) :=
  addPendingVotes_stale wVerify initialState _ (Or.inl rfl)

/-- C4: With a matching pending block, applying `addPendingVotes v` twice
yields exactly the same state as applying it once; and, starting from a
state whose recorded keys agree with (and are as distinct as) the stored
signature keys, each signer key appears at most once in the accumulated
signatures. -/
theorem addPendingVotes_idem (verify : Nat → String → SigItem → Bool)
    (s : ConsState) (v : Votes) (b : Block)
    (hb : s.pendingBlock = some b) (hh : b.height = v.height) (hid : b.id = v.id) :
    (addPendingVotes verify (addPendingVotes verify s v).1 v).1
      = (addPendingVotes verify s v).1
    ∧ (s.votesKeySet = sigKeys s.pendingVotes → s.votesKeySet.Nodup →
        (sigKeys (addPendingVotes verify s v).1.pendingVotes).Nodup) := by
  have hcond : (b.height == v.height && b.id == v.id) = true := by simp [hh, hid]
  have h1 := addPendingVotes_pos verify s v b hb hcond
  have hb1 : ((addPendingVotes verify s v).1).pendingBlock = some b := by
    rw [h1, foldl_addVoteItem_pendingBlock]
    exact hb
  have h2 := addPendingVotes_pos verify (addPendingVotes verify s v).1 v b hb1 hcond
  constructor
  · rw [h2, h1]
    exact foldl_addVoteItem_idem verify v.height v.id v.timestamp v.signatures s
  · intro hinv hnd
    rw [h1]
    rw [← foldl_addVoteItem_inv verify v.height v.id v.timestamp v.signatures s hinv]
    exact foldl_addVoteItem_nodup verify v.height v.id v.timestamp v.signatures s hnd

/-- Witness for C4 at a concrete matching state and vote. -/
theorem addPendingVotes_idem_witness :
    (addPendingVotes wVerify
        (addPendingVotes wVerify
          { pendingBlock := some { height := 1, id := "a", timestamp := 0 },
            pendingVotes := none, votesKeySet := [] }
          { height := 1, id := "a", timestamp := 0,
            signatures := [{ key := "k", sig := "s" }] }).1
        { height := 1, id := "a", timestamp := 0,
          signatures := [{ key := "k", sig := "s" }] }).1
      = (addPendingVotes wVerify
          { pendingBlock := some { height := 1, id := "a", timestamp := 0 },
            pendingVotes := none, votesKeySet := [] }
          { height := 1, id := "a", timestamp := 0,
            signatures := [{ key := "k", sig := "s" }] }).1
    ∧ (sigKeys (addPendingVotes wVerify
          { pendingBlock := some { height := 1, id := "a", timestamp := 0 },
            pendingVotes := none, votesKeySet := [] }
          { height := 1, id := "a", timestamp := 0,
            signatures := [{ key := "k", sig := "s" }] }).1.pendingVotes).Nodup := by
  have h := addPendingVotes_idem wVerify
    { pendingBlock := some { height := 1, id := "a", timestamp := 0 },
      pendingVotes := none, votesKeySet := [] }
    { height := 1, id := "a", timestamp := 0,
      signatures := [{ key := "k", sig := "s" }] }
    { height := 1, id := "a", timestamp := 0 } rfl rfl rfl
  exact ⟨h.1, h.2 rfl List.nodup_nil⟩

/-- C5: After any sequence of `setPendingBlock`, `clearState` and
`addPendingVotes` operations from the initial state, the keys recorded in
`votesKeySet` are exactly the key fields of the signatures stored in
`pendingVotes` (the empty set when `pendingVotes` is null). -/
theorem runOps_keyset_inv (verify : Nat → String → SigItem → Bool)
    (ops : List ConsOp) (k : String) :
    k ∈ (runOps verify ops).votesKeySet ↔ k ∈ sigKeys (runOps verify ops).pendingVotes := by
  have main : ∀ (l : List ConsOp) (s : ConsState),
      s.votesKeySet = sigKeys s.pendingVotes →
      (l.foldl (applyOp verify) s).votesKeySet
        = sigKeys (l.foldl (applyOp verify) s).pendingVotes := by
    intro l
    induction l with
    | nil => intro s hinv; exact hinv
    | cons op l ih =>
      intro s hinv
      rw [List.foldl_cons]
      exact ih _ (applyOp_inv verify s op hinv)
  rw [runOps, main ops initialState rfl]

/-- C10: `hasEnoughVotes` and `hasEnoughVotesRemote` are total at the public
interface: a `null`/`undefined` votes argument, or one lacking a
`signatures` array, makes both return the falsy outcome instead of
throwing. -/
theorem hasEnoughVotes_total (D : Nat) :
    hasEnoughVotes D none = false
    ∧ hasEnoughVotesRemote none = false
    ∧ hasEnoughVotes D (some { signatures := none }) = false
    ∧ hasEnoughVotesRemote (some { signatures := none }) = false :=
  ⟨rfl, rfl, rfl, rfl⟩

end Etm
